import Mathlib

/-!
Shallow embedding of the trackfast-template analytics pipeline:
the edge middleware validation gate (middleware.ts, `validateTrackingRequest`),
the tracking API route (`src/app/api/track/route.ts`, `POST` and `GET`),
and the multi-provider dispatch/aggregation logic inside `POST`.

JSON values are modelled by `JsVal`; JS objects and `Headers` are modelled as
association lists with JS insertion/overwrite semantics (`alistInsert`,
`alistLookup`).  Wall-clock time (`new Date().toISOString()`) is passed in
explicitly as a `now : String` parameter.  Network effects (the provider
`fetch` calls) are modelled by an `outcome : Provider → Settled` oracle giving
each enabled provider's settled result, mirroring `Promise.allSettled`.
-/

/-- Model of a JSON / JavaScript value as handled by the pipeline
(arrays are not needed by any of the embedded code paths). -/
inductive JsVal where
  | str (s : String)
  | num (n : Int)
  | bool (b : Bool)
  | null
  | obj (fields : List (String × JsVal))

/-- JavaScript truthiness of a `JsVal` (empty string, 0, false, null are falsy;
any object is truthy). -/
def jsTruthy : JsVal → Bool
  | JsVal.str s => !s.isEmpty
  | JsVal.num n => n != 0
  | JsVal.bool b => b
  | JsVal.null => false
  | JsVal.obj _ => true

/-- Lookup of a key in an association list (JS property access / `Headers.get`;
returns the first binding, and real JS objects have no duplicate keys). -/
def alistLookup {α : Type} : List (String × α) → String → Option α
  | [], _ => none
  | p :: rest, k => if p.1 = k then some p.2 else alistLookup rest k

/-- Key update in an association list: JS object key overwrite / `Headers.set`
(replaces the binding in place if the key exists, otherwise appends). -/
def alistInsert {α : Type} : List (String × α) → String → α → List (String × α)
  | [], k, v => [(k, v)]
  | p :: rest, k, v => if p.1 = k then (k, v) :: rest else p :: alistInsert rest k v

theorem alistLookup_insert_self {α : Type} (l : List (String × α)) (k : String) (v : α) :
    alistLookup (alistInsert l k v) k = some v := by
  induction l with
  | nil => simp [alistInsert, alistLookup]
  | cons p rest ih =>
    by_cases h : p.1 = k
    · simp [alistInsert, alistLookup, h]
    · simp [alistInsert, alistLookup, h, ih]

theorem alistLookup_insert_ne {α : Type} (l : List (String × α)) (k k2 : String) (v : α)
    (h : k2 ≠ k) : alistLookup (alistInsert l k v) k2 = alistLookup l k2 := by
  have hne : ¬ (k = k2) := fun hh => h hh.symm
  induction l with
  | nil => simp [alistInsert, alistLookup, hne]
  | cons p rest ih =>
    by_cases hp : p.1 = k
    · have hp2 : ¬ (p.1 = k2) := by rw [hp]; exact hne
      simp [alistInsert, alistLookup, hp, hne, hp2]
    · by_cases hq : p.1 = k2
      · simp [alistInsert, alistLookup, hp, hq, h]
      · simp [alistInsert, alistLookup, hp, hq, ih]

/-- Removing a key after overwriting it gives the same list as removing it
directly (used to reason about results modulo the attached timestamp). -/
theorem alistInsert_filter_out {α : Type} (l : List (String × α)) (k : String) (v : α) :
    (alistInsert l k v).filter (fun p => p.1 != k) = l.filter (fun p => p.1 != k) := by
  induction l with
  | nil => simp [alistInsert]
  | cons p rest ih =>
    by_cases hp : p.1 = k
    · simp [alistInsert, hp, List.filter_cons]
    · simp [alistInsert, hp, List.filter_cons, bne_iff_ne, ih]

/-- Process environment variables read by the pipeline.  A variable is `none`
when unset; JS truthiness of an env var is non-emptiness (`envTruthy`). -/
structure Env where
  posthogKey : Option String
  ga4Id : Option String
  ga4Secret : Option String
  vercelKvUrl : Option String
  nodeEnv : String
deriving DecidableEq

/-- Truthiness of `process.env.X` inside `if (process.env.X)` / `!!`:
set and non-empty. -/
def envTruthy : Option String → Bool
  | none => false
  | some s => !s.isEmpty

/-- `payload.event` extraction with the guard
`if (!payload.event || typeof payload.event !== 'string')` used by both the
middleware and the route: yields the event name exactly when the field is a
truthy (non-empty) string. -/
def eventNameOf (payload : JsVal) : Option String :=
  match payload with
  | JsVal.obj fields =>
    match alistLookup fields "event" with
    | some (JsVal.str s) => if s.isEmpty then none else some s
    | _ => none
  | _ => none

/-- `payload.properties || {}` as a property bag: the fields when the value is
an object, empty otherwise. -/
def propsOf (payload : JsVal) : List (String × JsVal) :=
  match payload with
  | JsVal.obj fields =>
    match alistLookup fields "properties" with
    | some (JsVal.obj props) => props
    | _ => []
  | _ => []

/-- An inbound request as seen by the middleware: the raw body text, the result
of `JSON.parse` on it (`none` models a parse exception), and the headers. -/
structure MWRequest where
  rawBody : String
  parsed : Option JsVal
  headers : List (String × String)

/-- The middleware's possible responses, mirroring the bodies built in
`validateTrackingRequest`: the three 400 error shapes, the forwarding path
(new request with trust headers and the original body), and the generic 500. -/
inductive MWResult where
  | parseError (error details : String)
  | eventError (error details : String)
  | unknownEvent (error details : String) (availableEvents : List String)
  | validationError (error details event : String)
  | forward (headers : List (String × String)) (body : String)
  | internalError (error details : String)

/-- The three trust-marker headers the middleware sets on the forwarded
request (`requestHeaders.set` calls, on a copy of the original headers). -/
def mwTrustHeaders (h : List (String × String)) (ev now : String) : List (String × String) :=
  alistInsert (alistInsert (alistInsert h "x-trackfast-validated" "true")
    "x-trackfast-event" ev) "x-trackfast-timestamp" now

/-- Embedding of `validateTrackingRequest` (middleware.ts).  The schema module
`src/lib/event-schemas` it imports is not part of the repository, so its two
exports are parameters: `registry` is `Object.keys(eventSchemas)` in
registration order (membership of `ev` models `payload.event in eventSchemas`),
and `validateEvent` returns `some msg` when the imported `validateEvent`
throws with message `msg` and `none` when it passes.  `now` is the value of
`new Date().toISOString()` at this call. -/
def validateTrackingRequest (registry : List String)
    (validateEvent : String → List (String × JsVal) → Option String)
    (req : MWRequest) (now : String) : MWResult :=
  match req.parsed with
  | none => MWResult.parseError "Invalid JSON payload" "Request body must be valid JSON"
  | some payload =>
    match eventNameOf payload with
    | none => MWResult.eventError "Missing or invalid event name" "Event must be a non-empty string"
    | some ev =>
      if registry.contains ev then
        match validateEvent ev (propsOf payload) with
        | some msg => MWResult.validationError "Event validation failed" msg ev
        | none => MWResult.forward (mwTrustHeaders req.headers ev now) req.rawBody
      else
        MWResult.unknownEvent ("Unknown event: " ++ ev)
          ("Available events: " ++ String.intercalate ", " registry) registry

/-- The two analytics providers the route fans out to, in invocation order
(PostHog is pushed onto `trackingPromises` first, then GA4). -/
inductive Provider where
  | posthog
  | ga4
deriving DecidableEq

/-- A settled provider attempt, as classified by `Promise.allSettled`:
fulfilled with a response whose `ok` flag is recorded, or rejected.
(In the source each promise carries a `.catch` returning an object with
`ok: false`, so rejection cannot actually occur, but the aggregation code
handles it and the model keeps it.) -/
inductive Settled where
  | fulfilled (ok : Bool)
  | rejected
deriving DecidableEq

/-- Whether a settled result counts as a success:
`result.status === 'fulfilled' && result.value.ok`. -/
def settledOk : Settled → Bool
  | Settled.fulfilled ok => ok
  | Settled.rejected => false

/-- The providers enabled by the environment, in invocation order: PostHog
when `NEXT_PUBLIC_POSTHOG_KEY` is truthy, GA4 when both `NEXT_PUBLIC_GA4_ID`
and `GA4_API_SECRET` are truthy.  A provider with missing credentials is never
pushed onto `trackingPromises`. -/
def enabledProviders (env : Env) : List Provider :=
  (if envTruthy env.posthogKey then [Provider.posthog] else []) ++
    (if envTruthy env.ga4Id && envTruthy env.ga4Secret then [Provider.ga4] else [])

/-- `await Promise.allSettled(trackingPromises)`: the settled results in
invocation order, with each enabled provider's outcome given by the network
oracle `outcome`. -/
def dispatchResults (env : Env) (outcome : Provider → Settled) : List (Provider × Settled) :=
  (enabledProviders env).map (fun p => (p, outcome p))

/-- `successes`: the count of fulfilled results whose value is ok. -/
def dispatchSuccesses (env : Env) (outcome : Provider → Settled) : Nat :=
  ((dispatchResults env outcome).filter (fun r => settledOk r.2)).length

/-- `failures`: the results that are rejected or not ok, in result order. -/
def dispatchFailures (env : Env) (outcome : Provider → Settled) : List (Provider × Settled) :=
  (dispatchResults env outcome).filter (fun r => !settledOk r.2)

/-- The aggregated dispatch report of one `POST` call:
`attempted` is `trackingPromises.length`, `succeeded` is `successes`, and
`failed` is the `failures` list. -/
structure DispatchReport where
  attempted : Nat
  succeeded : Nat
  failed : List (Provider × Settled)
deriving DecidableEq

/-- The report assembled by the route from the settled results. -/
def dispatchReport (env : Env) (outcome : Provider → Settled) : DispatchReport :=
  { attempted := (dispatchResults env outcome).length
    succeeded := dispatchSuccesses env outcome
    failed := dispatchFailures env outcome }

/-- The `providers` object of the success response body
(`attempted`, `successful`, `failed` counts). -/
structure ProviderCounts where
  attempted : Nat
  successful : Nat
  failed : Nat
deriving DecidableEq

/-- The success response body of `POST`. -/
structure SuccessBody where
  success : Bool
  event : String
  validated : Bool
  providers : ProviderCounts
  timestamp : String
deriving DecidableEq

/-- An error response body: `error` plus the optional `details` field
(absent when `details` is `undefined`). -/
structure ErrorBody where
  error : String
  details : Option String
deriving DecidableEq

/-- The possible responses of `POST`: 400, 200 success, or 500. -/
inductive RouteResponse where
  | badRequest (body : ErrorBody)
  | ok (body : SuccessBody)
  | serverError (body : ErrorBody)
deriving DecidableEq

/-- An inbound request as seen by the route handler: the result of
`await request.json()` (`Except.error msg` models the parse throwing with
message `msg`), the headers, and a ghost flag `gateSet` recording whether the
trust-marker headers were actually produced by the edge gate.  The handler
code has no access to `gateSet`; it is model state used to express
provenance properties. -/
structure RouteRequest where
  body : Except String JsVal
  headers : List (String × String)
  gateSet : Bool

/-- `request.headers.get('x-trackfast-validated') === 'true'`. -/
def routeIsValidated (headers : List (String × String)) : Bool :=
  alistLookup headers "x-trackfast-validated" == some "true"

/-- The `catch` block of `POST`: generic error, with the fault message
exposed in `details` only when `NODE_ENV === 'development'`. -/
def routeCatch (env : Env) (msg : String) : ErrorBody :=
  { error := "Internal server error"
    details := if env.nodeEnv = "development" then some msg else none }

/-- Message of the TypeError thrown by `const { event, properties } = payload`
when `request.json()` returns null. -/
def nullDestructureMsg : String :=
  "TypeError: cannot destructure a null payload"

/-- The `enhancedPayload.properties` object: the input properties spread into
a fresh object, then the four metadata keys written on top (later literal keys
overwrite spread keys of the same name). -/
def enhancedProperties (props : List (String × JsVal)) (validated : Bool) (now : String) :
    List (String × JsVal) :=
  alistInsert (alistInsert (alistInsert (alistInsert props
    "$lib" (JsVal.str "trackfast-server"))
    "$lib_version" (JsVal.str "0.1.0"))
    "$validated" (JsVal.bool validated))
    "timestamp" (JsVal.str now)

/-- Embedding of `POST` (route.ts).  `outcome` is the network oracle for the
enabled providers and `now` the wall-clock ISO timestamp of the call. -/
def POST (env : Env) (req : RouteRequest) (outcome : Provider → Settled) (now : String) :
    RouteResponse :=
  match req.body with
  | Except.error msg => RouteResponse.serverError (routeCatch env msg)
  | Except.ok JsVal.null => RouteResponse.serverError (routeCatch env nullDestructureMsg)
  | Except.ok payload =>
    match eventNameOf payload with
    | none => RouteResponse.badRequest { error := "Event name is required", details := none }
    | some ev =>
      RouteResponse.ok
        { success := true
          event := ev
          validated := routeIsValidated req.headers
          providers :=
            { attempted := (dispatchReport env outcome).attempted
              successful := (dispatchReport env outcome).succeeded
              failed := (dispatchReport env outcome).failed.length }
          timestamp := now }

/-- The character class `[a-zA-Z0-9_]` of the GA4 sanitization regex. -/
def ga4Allowed (c : Char) : Bool :=
  c.isAlphanum || c == '_'

/-- `event.replace(/[^a-zA-Z0-9_]/g, '_')`: every character outside
`[a-zA-Z0-9_]` is replaced by an underscore. -/
def ga4Sanitize (s : String) : String :=
  String.mk (s.data.map (fun c => if ga4Allowed c then c else '_'))

/-- The JSON body sent to the PostHog capture endpoint. -/
structure PosthogBody where
  api_key : String
  event : String
  properties : List (String × JsVal)
  timestamp : String

/-- Builder of the PostHog request body: the event name is passed through
unmodified and the properties are `enhancedPayload.properties`. -/
def posthogBody (env : Env) (ev : String) (props : List (String × JsVal))
    (validated : Bool) (now : String) : PosthogBody :=
  { api_key := env.posthogKey.getD ""
    event := ev
    properties := enhancedProperties props validated now
    timestamp := now }

/-- One entry of the `events` array of the GA4 measurement-protocol body. -/
structure Ga4Event where
  name : String
  parameters : List (String × JsVal)

/-- The JSON body sent to the GA4 measurement-protocol endpoint. -/
structure Ga4Body where
  client_id : JsVal
  events : List Ga4Event

/-- `properties?.userId || 'anonymous'`. -/
def ga4ClientId (props : List (String × JsVal)) : JsVal :=
  match alistLookup props "userId" with
  | some v => if jsTruthy v then v else JsVal.str "anonymous"
  | none => JsVal.str "anonymous"

/-- Builder of the GA4 request body: the event name is sanitized and the
parameters are `enhancedPayload.properties`. -/
def ga4Body (ev : String) (props : List (String × JsVal))
    (validated : Bool) (now : String) : Ga4Body :=
  { client_id := ga4ClientId props
    events := [{ name := ga4Sanitize ev, parameters := enhancedProperties props validated now }] }

/-- The response body of the health endpoint `GET`. -/
structure HealthBody where
  status : String
  service : String
  version : String
  posthog : Bool
  ga4 : Bool
  timestamp : String
deriving DecidableEq

/-- Embedding of `GET` (route.ts): reports per-provider configuration as
booleans (`!!` coercions over the credential env vars). -/
def GET (env : Env) (now : String) : HealthBody :=
  { status := "ok"
    service := "trackfast-api"
    version := "0.1.0"
    posthog := envTruthy env.posthogKey
    ga4 := envTruthy env.ga4Id && envTruthy env.ga4Secret
    timestamp := now }

theorem filterLengthPartition {α : Type} (p : α → Bool) (l : List α) :
    (l.filter p).length + (l.filter (fun a => !p a)).length = l.length := by
  induction l with
  | nil => rfl
  | cons a l ih =>
    by_cases h : p a
    · simp [List.filter_cons, h]
      omega
    · simp [List.filter_cons, h]
      omega

/-- C1: every dispatch call produces a report whose `attempted` equals the number
of enabled providers (a provider with absent credentials is skipped and not
counted), whose `succeeded` plus the length of `failed` equals `attempted`,
whose `failed` entries appear in provider invocation order (a sublist of the
invocation-order results), and which is `(0, 0, [])` rather than an error when
no provider is enabled. -/
theorem dispatch_report_invariants (env : Env) (outcome : Provider → Settled) :
    (dispatchReport env outcome).attempted = (enabledProviders env).length ∧
    (dispatchReport env outcome).succeeded + (dispatchReport env outcome).failed.length
      = (dispatchReport env outcome).attempted ∧
    (dispatchReport env outcome).failed.Sublist (dispatchResults env outcome) ∧
    (envTruthy env.posthogKey = false → Provider.posthog ∉ enabledProviders env) ∧
    ((envTruthy env.ga4Id && envTruthy env.ga4Secret) = false →
      Provider.ga4 ∉ enabledProviders env) ∧
    (enabledProviders env = [] →
      dispatchReport env outcome = { attempted := 0, succeeded := 0, failed := [] }) := by
  refine ⟨?_, ?_, ?_, ?_, ?_, ?_⟩
  · simp [dispatchReport, dispatchResults]
  · simpa [dispatchReport, dispatchSuccesses, dispatchFailures] using
      filterLengthPartition (fun r => settledOk r.2) (dispatchResults env outcome)
  · exact List.filter_sublist _
  · intro h
    by_cases hg : envTruthy env.ga4Id && envTruthy env.ga4Secret <;>
      simp [enabledProviders, h, hg]
  · intro h
    by_cases hp : envTruthy env.posthogKey <;> simp [enabledProviders, h, hp]
  · intro h
    simp [dispatchReport, dispatchResults, dispatchSuccesses, dispatchFailures, h]

/-- C1 witness: with no credentials configured, the report is `(0, 0, [])`. -/
theorem dispatch_report_invariants_witness :
    dispatchReport ⟨none, none, none, none, "production"⟩ (fun _ => Settled.rejected)
      = { attempted := 0, succeeded := 0, failed := [] } :=
  (dispatch_report_invariants ⟨none, none, none, none, "production"⟩
    (fun _ => Settled.rejected)).2.2.2.2.2 rfl

theorem allFailCounts (l : List Provider) (outcome : Provider → Settled)
    (h : ∀ p, settledOk (outcome p) = false) :
    ((l.map (fun p => (p, outcome p))).filter (fun r => settledOk r.2)).length = 0 ∧
    ((l.map (fun p => (p, outcome p))).filter (fun r => !settledOk r.2)).length = l.length := by
  induction l with
  | nil => simp
  | cons a l ih => simp [List.filter_cons, h a, ih.1, ih.2]

/-- C2: for any request with a well-formed event, the dispatch boundary never
fails the overall call: whatever the provider outcomes, `POST` returns the
success response carrying the per-provider counts, and when every provider
attempt fails the counts record zero successes and `attempted` failures. -/
theorem post_dispatch_never_raises (env : Env) (req : RouteRequest)
    (outcome : Provider → Settled) (now : String) (payload : JsVal) (ev : String)
    (hb : req.body = Except.ok payload) (hnn : payload ≠ JsVal.null)
    (hev : eventNameOf payload = some ev) :
    POST env req outcome now = RouteResponse.ok
      { success := true
        event := ev
        validated := routeIsValidated req.headers
        providers :=
          { attempted := (enabledProviders env).length
            successful := dispatchSuccesses env outcome
            failed := (dispatchFailures env outcome).length }
        timestamp := now } ∧
    ((∀ p, settledOk (outcome p) = false) →
      dispatchSuccesses env outcome = 0 ∧
      (dispatchFailures env outcome).length = (enabledProviders env).length) := by
  constructor
  · cases payload with
    | null => exact absurd rfl hnn
    | str s => simp [eventNameOf] at hev
    | num n => simp [eventNameOf] at hev
    | bool b => simp [eventNameOf] at hev
    | obj fields =>
      simp only [POST, hb]
      rw [hev]
      simp [dispatchReport, dispatchResults, dispatchSuccesses, dispatchFailures]
  · intro hall
    have h1 := allFailCounts (enabledProviders env) outcome hall
    exact ⟨by simpa [dispatchSuccesses, dispatchResults] using h1.1,
      by simpa [dispatchFailures, dispatchResults] using h1.2⟩

/-- C2 witness: both providers enabled, both attempts failing, yet the call
returns the success response with counts (2, 0, 2). -/
theorem post_dispatch_never_raises_witness :
    POST ⟨some "pk", some "gid", some "gs", none, "production"⟩
        ⟨Except.ok (JsVal.obj [("event", JsVal.str "pageview")]), [], false⟩
        (fun _ => Settled.fulfilled false) "2025-01-18T00:00:00.000Z"
      = RouteResponse.ok
        { success := true
          event := "pageview"
          validated := false
          providers := { attempted := 2, successful := 0, failed := 2 }
          timestamp := "2025-01-18T00:00:00.000Z" } :=
  (post_dispatch_never_raises ⟨some "pk", some "gid", some "gs", none, "production"⟩
    ⟨Except.ok (JsVal.obj [("event", JsVal.str "pageview")]), [], false⟩
    (fun _ => Settled.fulfilled false) "2025-01-18T00:00:00.000Z"
    (JsVal.obj [("event", JsVal.str "pageview")]) "pageview"
    rfl (fun h => JsVal.noConfusion h) rfl).1

/-- C10: the health endpoint response is a function of credential presence only:
two environments whose credentials have the same truthiness produce identical
responses, and every string field of the response is a fixed constant or the
call timestamp, never a credential value. -/
theorem health_presence_only (e1 e2 : Env) (now : String)
    (hp : envTruthy e1.posthogKey = envTruthy e2.posthogKey)
    (hg : envTruthy e1.ga4Id = envTruthy e2.ga4Id)
    (hs : envTruthy e1.ga4Secret = envTruthy e2.ga4Secret) :
    GET e1 now = GET e2 now ∧
    (GET e1 now).status = "ok" ∧ (GET e1 now).service = "trackfast-api" ∧
    (GET e1 now).version = "0.1.0" ∧ (GET e1 now).timestamp = now := by
  refine ⟨?_, rfl, rfl, rfl, rfl⟩
  simp [GET, hp, hg, hs]

/-- C10 witness: two environments with different non-empty credential values
report the same health body. -/
theorem health_presence_only_witness :
    GET ⟨some "key-a", some "id-a", some "sec-a", none, "production"⟩ "2025-01-18T00:00:00.000Z"
      = GET ⟨some "key-b", some "id-b", some "sec-b", some "kv", "development"⟩
          "2025-01-18T00:00:00.000Z" :=
  (health_presence_only ⟨some "key-a", some "id-a", some "sec-a", none, "production"⟩
    ⟨some "key-b", some "id-b", some "sec-b", some "kv", "development"⟩
    "2025-01-18T00:00:00.000Z" rfl rfl rfl).1

/-- A request carrying the trust-marker header although the gate did not
produce it (the ghost flag `gateSet` is false): any client can send this
header directly to the route. -/
def forgedRequest : RouteRequest :=
  { body := Except.ok (JsVal.obj [("event", JsVal.str "pageview")])
    headers := [("x-trackfast-validated", "true")]
    gateSet := false }

/-- The `validated` flag of a success response. -/
def responseValidated : RouteResponse → Option Bool
  | RouteResponse.ok body => some body.validated
  | _ => none

/-- C3 counterexample: the route treats a request as validated although its
trust marker was not produced by the gate.  The forged request has
`gateSet = false`, yet the header check accepts it and the response reports
`validated = true`: no signature or gate-controlled side channel is checked. -/
theorem forged_marker_trusted :
    forgedRequest.gateSet = false ∧
    routeIsValidated forgedRequest.headers = true ∧
    responseValidated (POST ⟨some "pk", none, none, none, "production"⟩ forgedRequest
      (fun _ => Settled.fulfilled true) "2025-01-18T00:00:00.000Z") = some true :=
  ⟨rfl, rfl, rfl⟩

/-- C3 (amended): the route decides validated-ness from the literal header
value alone and performs no verification that the marker was set by the gate:
its response is identical for two requests that agree on body and headers,
even when only one of them actually passed through the gate. -/
theorem marker_trusted_without_verification (env : Env) (outcome : Provider → Settled)
    (now : String) (r1 r2 : RouteRequest)
    (hb : r1.body = r2.body) (hh : r1.headers = r2.headers) :
    POST env r1 outcome now = POST env r2 outcome now := by
  cases r1
  cases r2
  cases hb
  cases hh
  rfl

/-- C3 amended-claim witness: the forged request and its gate-produced twin
receive the same response. -/
theorem marker_trusted_without_verification_witness :
    POST ⟨some "pk", none, none, none, "production"⟩ forgedRequest
        (fun _ => Settled.fulfilled true) "2025-01-18T00:00:00.000Z"
      = POST ⟨some "pk", none, none, none, "production"⟩
          { body := Except.ok (JsVal.obj [("event", JsVal.str "pageview")])
            headers := [("x-trackfast-validated", "true")]
            gateSet := true }
          (fun _ => Settled.fulfilled true) "2025-01-18T00:00:00.000Z" :=
  marker_trusted_without_verification ⟨some "pk", none, none, none, "production"⟩
    (fun _ => Settled.fulfilled true) "2025-01-18T00:00:00.000Z" forgedRequest
    { body := Except.ok (JsVal.obj [("event", JsVal.str "pageview")])
      headers := [("x-trackfast-validated", "true")]
      gateSet := true }
    rfl rfl

/-- C4 counterexample: an input property named `$lib` (undeclared in any
schema) does not pass through unchanged: the route overwrites its value with
its own metadata before building the provider payloads. -/
theorem reserved_property_overwritten :
    alistLookup [("$lib", JsVal.str "custom")] "$lib" = some (JsVal.str "custom") ∧
    alistLookup (enhancedProperties [("$lib", JsVal.str "custom")] true "2025-01-18T00:00:00.000Z")
      "$lib" = some (JsVal.str "trackfast-server") ∧
    (posthogBody ⟨some "pk", none, none, none, "production"⟩ "pageview"
        [("$lib", JsVal.str "custom")] true "2025-01-18T00:00:00.000Z").properties
      = enhancedProperties [("$lib", JsVal.str "custom")] true "2025-01-18T00:00:00.000Z" ∧
    JsVal.str "trackfast-server" ≠ JsVal.str "custom" := by
  refine ⟨rfl, rfl, rfl, ?_⟩
  intro h
  injection h with h1
  exact absurd h1 (by decide)

/-- C4 (amended): every input property whose key is not one of the four
reserved metadata keys `$lib`, `$lib_version`, `$validated`, `timestamp` is
passed through unchanged into the properties object used by both outbound
provider payloads; the four reserved keys are overwritten with route
metadata. -/
theorem passthrough_except_reserved (props : List (String × JsVal)) (k : String)
    (validated : Bool) (now : String) (env : Env) (ev : String)
    (h1 : k ≠ "$lib") (h2 : k ≠ "$lib_version") (h3 : k ≠ "$validated")
    (h4 : k ≠ "timestamp") :
    alistLookup (enhancedProperties props validated now) k = alistLookup props k ∧
    (posthogBody env ev props validated now).properties
      = enhancedProperties props validated now ∧
    (ga4Body ev props validated now).events.map (fun e => e.parameters)
      = [enhancedProperties props validated now] := by
  refine ⟨?_, rfl, rfl⟩
  simp only [enhancedProperties]
  rw [alistLookup_insert_ne _ _ _ _ h4, alistLookup_insert_ne _ _ _ _ h3,
    alistLookup_insert_ne _ _ _ _ h2, alistLookup_insert_ne _ _ _ _ h1]

/-- C4 amended-claim witness: a `userId` property survives enhancement
unchanged. -/
theorem passthrough_except_reserved_witness :
    alistLookup (enhancedProperties [("userId", JsVal.str "u1")] true
        "2025-01-18T00:00:00.000Z") "userId"
      = alistLookup [("userId", JsVal.str "u1")] "userId" :=
  (passthrough_except_reserved [("userId", JsVal.str "u1")] "userId" true
    "2025-01-18T00:00:00.000Z" ⟨some "pk", none, none, none, "production"⟩ "pageview"
    (by decide) (by decide) (by decide) (by decide)).1

/-- Modelled from the spec: the generated schema module `src/lib/event-schemas`
is absent from the repository, so this registry lists the known event names of
the spec (section 8 scenarios) in registration order, for use at concrete
instances. -/
def specRegistry : List String := ["user_signed_up", "pageview"]

/-- Modelled from the spec: the absent `validateEvent` export of
`src/lib/event-schemas`, for the section 8 `user_signed_up` schema (required
string `email`, required enum `plan` in free/starter/growth, optional string
`source`); other registered events accept any properties.  Returns the thrown
message on failure and `none` on pass. -/
def specValidateEvent (ev : String) (props : List (String × JsVal)) : Option String :=
  if ev = "user_signed_up" then
    match alistLookup props "email" with
    | some (JsVal.str _) =>
      match alistLookup props "plan" with
      | some (JsVal.str p) =>
        if p = "free" || p = "starter" || p = "growth" then none
        else some "Invalid enum value for plan"
      | some _ => some "Expected string for plan"
      | none => some "Missing required property: plan"
    | some _ => some "Expected string for email"
    | none => some "Missing required property: email"
  else none

/-- A well-formed pageview request as the middleware sees it. -/
def pageviewRequest : MWRequest :=
  { rawBody := "\x7b\"event\": \"pageview\"\x7d"
    parsed := some (JsVal.obj [("event", JsVal.str "pageview")])
    headers := [] }

/-- The validation timestamp attached to a forwarded middleware result. -/
def mwTimestampOf : MWResult → Option String
  | MWResult.forward hdrs _ => alistLookup hdrs "x-trackfast-timestamp"
  | _ => none

/-- C5 counterexample: validating the same payload at two different wall-clock
instants does not yield identical results: the attached validation metadata
contains the call timestamp, which differs between the two calls. -/
theorem validation_not_identical_across_time :
    validateTrackingRequest specRegistry specValidateEvent pageviewRequest
        "2025-01-18T00:00:00.000Z"
      ≠ validateTrackingRequest specRegistry specValidateEvent pageviewRequest
          "2025-01-18T00:00:01.000Z" := by
  intro h
  have h2 := congrArg mwTimestampOf h
  have e1 : mwTimestampOf (validateTrackingRequest specRegistry specValidateEvent
      pageviewRequest "2025-01-18T00:00:00.000Z") = some "2025-01-18T00:00:00.000Z" := rfl
  have e2 : mwTimestampOf (validateTrackingRequest specRegistry specValidateEvent
      pageviewRequest "2025-01-18T00:00:01.000Z") = some "2025-01-18T00:00:01.000Z" := rfl
  rw [e1, e2] at h2
  exact absurd (Option.some.inj h2) (by decide)

/-- Erase the attached validation timestamp header from a middleware result. -/
def stripValidationTimestamp : MWResult → MWResult
  | MWResult.forward hdrs body =>
      MWResult.forward (hdrs.filter (fun p => p.1 != "x-trackfast-timestamp")) body
  | r => r

/-- C5 (amended): validation is deterministic and mutates no state: the results
of validating the same payload at any two times are identical except possibly
for the attached validation timestamp, which records the wall-clock time of
each call. -/
theorem validation_deterministic_mod_timestamp (registry : List String)
    (validateEvent : String → List (String × JsVal) → Option String)
    (req : MWRequest) (t1 t2 : String) :
    stripValidationTimestamp (validateTrackingRequest registry validateEvent req t1)
      = stripValidationTimestamp (validateTrackingRequest registry validateEvent req t2) := by
  unfold validateTrackingRequest
  cases hp : req.parsed with
  | none => rfl
  | some payload =>
    dsimp only
    cases hev : eventNameOf payload with
    | none => rfl
    | some ev =>
      dsimp only
      by_cases hc : registry.contains ev = true
      · rw [if_pos hc, if_pos hc]
        cases hv : validateEvent ev (propsOf payload) with
        | some msg => rfl
        | none =>
          dsimp only
          simp [stripValidationTimestamp, mwTrustHeaders, alistInsert_filter_out]
      · rw [if_neg hc, if_neg hc]

/-- C6: for every registry and every payload whose event name is not
registered, validation fails with the unknown-event kind and the failure
message enumerates all known event names, joined in registration order — a
fixed order, the same on every call. -/
theorem unknown_event_enumerates_names (registry : List String)
    (validateEvent : String → List (String × JsVal) → Option String)
    (req : MWRequest) (now : String) (payload : JsVal) (ev : String)
    (hp : req.parsed = some payload) (hev : eventNameOf payload = some ev)
    (hnotin : registry.contains ev = false) :
    validateTrackingRequest registry validateEvent req now =
      MWResult.unknownEvent ("Unknown event: " ++ ev)
        ("Available events: " ++ String.intercalate ", " registry) registry := by
  unfold validateTrackingRequest
  rw [hp]
  dsimp only
  rw [hev]
  dsimp only
  rw [if_neg (by rw [hnotin]; exact Bool.false_ne_true)]

/-- C6 witness: the unknown event `foo` against the spec registry yields the
enumerating failure. -/
theorem unknown_event_enumerates_names_witness :
    validateTrackingRequest specRegistry specValidateEvent
        { rawBody := "\x7b\"event\": \"foo\"\x7d"
          parsed := some (JsVal.obj [("event", JsVal.str "foo")])
          headers := [] } "2025-01-18T00:00:00.000Z"
      = MWResult.unknownEvent "Unknown event: foo"
          "Available events: user_signed_up, pageview" ["user_signed_up", "pageview"] := by
  have h := unknown_event_enumerates_names specRegistry specValidateEvent
    { rawBody := "\x7b\"event\": \"foo\"\x7d"
      parsed := some (JsVal.obj [("event", JsVal.str "foo")])
      headers := [] } "2025-01-18T00:00:00.000Z"
    (JsVal.obj [("event", JsVal.str "foo")]) "foo" rfl rfl rfl
  simpa [specRegistry] using h

/-- C7: whenever the payload passes validation, the middleware attaches a trust
marker consisting of exactly the three headers (validated flag `true`, the
event name, the validation timestamp), leaves every other header unchanged,
and forwards the request with its original body. -/
theorem validated_request_forwarded (registry : List String)
    (validateEvent : String → List (String × JsVal) → Option String)
    (req : MWRequest) (now : String) (payload : JsVal) (ev : String)
    (hp : req.parsed = some payload) (hev : eventNameOf payload = some ev)
    (hin : registry.contains ev = true)
    (hok : validateEvent ev (propsOf payload) = none) :
    validateTrackingRequest registry validateEvent req now
      = MWResult.forward (mwTrustHeaders req.headers ev now) req.rawBody ∧
    alistLookup (mwTrustHeaders req.headers ev now) "x-trackfast-validated" = some "true" ∧
    alistLookup (mwTrustHeaders req.headers ev now) "x-trackfast-event" = some ev ∧
    alistLookup (mwTrustHeaders req.headers ev now) "x-trackfast-timestamp" = some now ∧
    ∀ k, k ≠ "x-trackfast-validated" → k ≠ "x-trackfast-event" →
      k ≠ "x-trackfast-timestamp" →
      alistLookup (mwTrustHeaders req.headers ev now) k = alistLookup req.headers k := by
  refine ⟨?_, ?_, ?_, ?_, ?_⟩
  · unfold validateTrackingRequest
    rw [hp]
    dsimp only
    rw [hev]
    dsimp only
    rw [if_pos hin, hok]
  · simp only [mwTrustHeaders]
    rw [alistLookup_insert_ne _ _ _ _ (by decide), alistLookup_insert_ne _ _ _ _ (by decide),
      alistLookup_insert_self]
  · simp only [mwTrustHeaders]
    rw [alistLookup_insert_ne _ _ _ _ (by decide), alistLookup_insert_self]
  · simp only [mwTrustHeaders]
    rw [alistLookup_insert_self]
  · intro k h1 h2 h3
    simp only [mwTrustHeaders]
    rw [alistLookup_insert_ne _ _ _ _ h3, alistLookup_insert_ne _ _ _ _ h2,
      alistLookup_insert_ne _ _ _ _ h1]

/-- C7 witness: the valid pageview request is forwarded with the three marker
headers and its original body. -/
theorem validated_request_forwarded_witness :
    validateTrackingRequest specRegistry specValidateEvent pageviewRequest
        "2025-01-18T00:00:00.000Z"
      = MWResult.forward
          (mwTrustHeaders pageviewRequest.headers "pageview" "2025-01-18T00:00:00.000Z")
          pageviewRequest.rawBody :=
  (validated_request_forwarded specRegistry specValidateEvent pageviewRequest
    "2025-01-18T00:00:00.000Z" (JsVal.obj [("event", JsVal.str "pageview")]) "pageview"
    rfl rfl rfl rfl).1

/-- C8: for every dispatched event, the GA4 measurement-protocol payload
carries the event name with every disallowed character replaced by an
underscore, so the sent name contains only letters, digits, and underscores,
while the PostHog payload keeps the original event name. -/
theorem ga4_name_sanitized_posthog_unchanged (env : Env) (ev : String)
    (props : List (String × JsVal)) (validated : Bool) (now : String) :
    (posthogBody env ev props validated now).event = ev ∧
    (ga4Body ev props validated now).events.map (fun e => e.name) = [ga4Sanitize ev] ∧
    (ga4Sanitize ev).data = ev.data.map (fun c => if ga4Allowed c then c else '_') ∧
    (ga4Sanitize ev).data.all ga4Allowed = true := by
  refine ⟨rfl, rfl, rfl, ?_⟩
  have hdata : (ga4Sanitize ev).data = ev.data.map (fun c => if ga4Allowed c then c else '_') :=
    rfl
  rw [hdata, List.all_eq_true]
  intro c hc
  rcases List.mem_map.1 hc with ⟨a, _, rfl⟩
  by_cases h : ga4Allowed a
  · simp [h]
  · simp only [h, if_false, Bool.false_eq_true]
    decide

/-- C9: any unhandled internal fault in the route pipeline (the body parse
throwing, or the destructuring of a null payload throwing) is caught and
mapped to the generic server-error body; in production posture the `details`
field is absent, so no internal fault message reaches the caller, whatever
the fault message was. -/
theorem internal_fault_generic_in_production (env : Env) (req : RouteRequest)
    (outcome : Provider → Settled) (now : String) (msg : String)
    (hprod : env.nodeEnv = "production") :
    (req.body = Except.error msg →
      POST env req outcome now
        = RouteResponse.serverError { error := "Internal server error", details := none }) ∧
    (req.body = Except.ok JsVal.null →
      POST env req outcome now
        = RouteResponse.serverError { error := "Internal server error", details := none }) := by
  constructor
  · intro hb
    simp only [POST, hb, routeCatch, hprod]
    rw [if_neg (by decide)]
  · intro hb
    simp only [POST, hb, routeCatch, hprod]
    rw [if_neg (by decide)]

/-- C9 witness: a parse fault with message `boom` in production yields the
generic body with no details. -/
theorem internal_fault_generic_in_production_witness :
    POST ⟨none, none, none, none, "production"⟩ ⟨Except.error "boom", [], false⟩
        (fun _ => Settled.rejected) "2025-01-18T00:00:00.000Z"
      = RouteResponse.serverError { error := "Internal server error", details := none } :=
  (internal_fault_generic_in_production ⟨none, none, none, none, "production"⟩
    ⟨Except.error "boom", [], false⟩ (fun _ => Settled.rejected)
    "2025-01-18T00:00:00.000Z" "boom" rfl).1 rfl
